import Mathlib

/-!
Verification of the Adler-32 update routine (src/adler32.c) against its
natural-language specification.

The C function is

  void adler32_update(uint32_t *s1, uint32_t *s2, const unsigned char *buf, size_t len)

It dispatches on the buffer length:
  - len == 0: store (1, 0);
  - len < 16: scalar loop, reducing mod 65521 after every byte;
  - len >= 16: deferred reduction, processing BLOCK_SIZE = 5552 bytes per
    block with no intermediate reduction (the NEON lane extraction performs
    the same per-byte sequence a += x; b += a in buffer order), reducing
    mod 65521 after each block, then the remainder bytes, then a final
    reduction.

We embed the routine shallowly: the buffer is a list of bytes, which are
`Fin 256` values, matching the C `unsigned char`; the two accumulators are
natural numbers, with every C `uint32_t` addition modelled by an explicit
reduction modulo 2 ^ 32, so that unsigned wraparound is captured exactly.
-/

/-- The prime modulus of the Adler-32 algorithm, `ADLER32_PRIME` in the C
source. -/
def ADLER32_PRIME : Nat := 65521

/-- Modulus of C `uint32_t` arithmetic: every addition of 32-bit unsigned
values in the source is performed modulo 2 ^ 32. -/
def U32_MOD : Nat := 2 ^ 32

/-- The deferred-reduction block length, `BLOCK_SIZE` in the C source
(line 33): the number of bytes accumulated without any intermediate
reduction before a mandatory modulo. -/
def BLOCK_SIZE : Nat := 5552

/-- One iteration of the scalar short-buffer loop (lines 23-26 of the
source): `a = (a + buf[n]) % ADLER32_PRIME; b = (b + a) % ADLER32_PRIME;`
where both additions are C `uint32_t` additions, hence wrap modulo 2 ^ 32
before the prime reduction. -/
def scalarStep (s : Nat × Nat) (x : Fin 256) : Nat × Nat :=
  let a := ((s.1 + x.val) % U32_MOD) % ADLER32_PRIME
  let b := ((s.2 + a) % U32_MOD) % ADLER32_PRIME
  (a, b)

/-- The scalar short-buffer loop of the source, folding `scalarStep` over
the bytes in buffer order. -/
def scalarLoop (s : Nat × Nat) (buf : List (Fin 256)) : Nat × Nat :=
  buf.foldl scalarStep s

/-- One unreduced accumulation step of the block path (`a += byte; b += a;`
with C `uint32_t` wraparound, as performed for each of the 16 extracted
NEON lanes in lines 47-78 and 96-127, and for the scalar tail in
lines 131-134). -/
def rawStep (s : Nat × Nat) (x : Fin 256) : Nat × Nat :=
  let a := (s.1 + x.val) % U32_MOD
  let b := (s.2 + a) % U32_MOD
  (a, b)

/-- Unreduced accumulation over a span of bytes in buffer order: the
semantics of one block's inner loop (or of the remainder processing),
which performs `a += x; b += a` per byte with no prime reduction. -/
def rawLoop (s : Nat × Nat) (buf : List (Fin 256)) : Nat × Nat :=
  buf.foldl rawStep s

/-- The full-block loop of lines 38-84: each of the `blocks` iterations
accumulates `BLOCK_SIZE` bytes without reduction, then applies
`a %= ADLER32_PRIME; b %= ADLER32_PRIME`. The list argument plays the role
of the pointer `buf + block * BLOCK_SIZE`. -/
def processBlocks : Nat × Nat → List (Fin 256) → Nat → Nat × Nat
  | s, _, 0 => s
  | s, buf, n + 1 =>
      processBlocks
        ((rawLoop s (buf.take BLOCK_SIZE)).1 % ADLER32_PRIME,
         (rawLoop s (buf.take BLOCK_SIZE)).2 % ADLER32_PRIME)
        (buf.drop BLOCK_SIZE) n

/-- Shallow embedding of `adler32_update` (lines 10-142 of src/adler32.c).
The three regimes of the source are reproduced: empty buffer (lines
15-19), scalar short buffer (lines 22-30), and the block path (lines
33-141) with `blocks = len / BLOCK_SIZE` full blocks followed by the
`len % BLOCK_SIZE` remainder bytes and a final reduction. -/
def adler32_update (s1 s2 : Nat) (buf : List (Fin 256)) : Nat × Nat :=
  if buf.length = 0 then (1, 0)
  else if buf.length < 16 then scalarLoop (s1, s2) buf
  else
    let blocks := buf.length / BLOCK_SIZE
    let s := processBlocks (s1, s2) buf blocks
    let t := rawLoop s (buf.drop (blocks * BLOCK_SIZE))
    (t.1 % ADLER32_PRIME, t.2 % ADLER32_PRIME)

/-- Modelled from the spec: one step of the textbook byte-by-byte Adler-32
recurrence, `s1 = (s1 + x) mod 65521; s2 = (s2 + s1) mod 65521`, stated
over unbounded naturals with no 2 ^ 32 wraparound, exactly as the spec
words it. This is the reference side of the refinement claims. -/
def refStep (s : Nat × Nat) (x : Fin 256) : Nat × Nat :=
  let a := (s.1 + x.val) % ADLER32_PRIME
  (a, (s.2 + a) % ADLER32_PRIME)

/-- Modelled from the spec: the byte-by-byte reference recurrence applied
to a whole buffer in order. -/
def refLoop (s : Nat × Nat) (buf : List (Fin 256)) : Nat × Nat :=
  buf.foldl refStep s

/-- Modelled from the spec: the reference behaviour of a single update
call, namely the scalar byte-by-byte recurrence applied to the entire
buffer, with the empty-buffer case returning the identity state (1, 0). -/
def adlerRef (s1 s2 : Nat) (buf : List (Fin 256)) : Nat × Nat :=
  if buf = [] then (1, 0) else refLoop (s1, s2) buf

/-- The exact (unbounded, unreduced) accumulation step `a += x; b += a`
over naturals: the ideal value that the block path's deferred accumulation
is intended to track when no 32-bit wraparound occurs. -/
def idealStep (s : Nat × Nat) (x : Fin 256) : Nat × Nat :=
  let a := s.1 + x.val
  (a, s.2 + a)

/-- Exact unreduced accumulation over a span of bytes. -/
def idealLoop (s : Nat × Nat) (buf : List (Fin 256)) : Nat × Nat :=
  buf.foldl idealStep s

/-- Threading the checksum state through a sequence of update calls, one
per chunk, as a caller processing chunked input does. -/
def chainUpdate (s : Nat × Nat) (parts : List (List (Fin 256))) : Nat × Nat :=
  parts.foldl (fun t c => adler32_update t.1 t.2 c) s

/-- The conventional packing of the two components into the 32-bit
Adler-32 value, `(s2 <<< 16) ||| s1`. -/
def packedChecksum (s : Nat × Nat) : Nat :=
  s.2 * 65536 + s.1

/-! ### Basic range facts -/

lemma ADLER32_PRIME_pos : 0 < ADLER32_PRIME := by decide

lemma scalarStep_lt (s : Nat × Nat) (x : Fin 256) :
    (scalarStep s x).1 < ADLER32_PRIME ∧ (scalarStep s x).2 < ADLER32_PRIME :=
  ⟨Nat.mod_lt _ ADLER32_PRIME_pos, Nat.mod_lt _ ADLER32_PRIME_pos⟩

lemma scalarLoop_lt : ∀ (l : List (Fin 256)) (s : Nat × Nat),
    s.1 < ADLER32_PRIME → s.2 < ADLER32_PRIME →
    (scalarLoop s l).1 < ADLER32_PRIME ∧ (scalarLoop s l).2 < ADLER32_PRIME
  | [], s, h1, h2 => ⟨h1, h2⟩
  | x :: l, s, _, _ =>
    scalarLoop_lt l (scalarStep s x) (scalarStep_lt s x).1 (scalarStep_lt s x).2

lemma scalarLoop_ne_nil_lt (l : List (Fin 256)) (s : Nat × Nat) (h : l ≠ []) :
    (scalarLoop s l).1 < ADLER32_PRIME ∧ (scalarLoop s l).2 < ADLER32_PRIME := by
  cases l with
  | nil => exact absurd rfl h
  | cons x l =>
      exact scalarLoop_lt l (scalarStep s x) (scalarStep_lt s x).1 (scalarStep_lt s x).2

/-- The returned state of the update routine is always reduced, for every
input state whatsoever: each regime ends in a reduction (or returns the
constant (1, 0)). -/
lemma adler32_update_lt (s1 s2 : Nat) (buf : List (Fin 256)) :
    (adler32_update s1 s2 buf).1 < ADLER32_PRIME ∧
    (adler32_update s1 s2 buf).2 < ADLER32_PRIME := by
  unfold adler32_update
  by_cases h0 : buf.length = 0
  · simp [h0]; decide
  · by_cases h16 : buf.length < 16
    · simp only [h0, h16, if_false, if_true]
      exact scalarLoop_ne_nil_lt buf (s1, s2) (fun hnil => h0 (by simp [hnil]))
    · simp only [h0, h16, if_false]
      exact ⟨Nat.mod_lt _ ADLER32_PRIME_pos, Nat.mod_lt _ ADLER32_PRIME_pos⟩

lemma refStep_lt (s : Nat × Nat) (x : Fin 256) :
    (refStep s x).1 < ADLER32_PRIME ∧ (refStep s x).2 < ADLER32_PRIME :=
  ⟨Nat.mod_lt _ ADLER32_PRIME_pos, Nat.mod_lt _ ADLER32_PRIME_pos⟩

lemma refLoop_lt : ∀ (l : List (Fin 256)) (s : Nat × Nat),
    s.1 < ADLER32_PRIME → s.2 < ADLER32_PRIME →
    (refLoop s l).1 < ADLER32_PRIME ∧ (refLoop s l).2 < ADLER32_PRIME
  | [], s, h1, h2 => ⟨h1, h2⟩
  | x :: l, s, _, _ =>
    refLoop_lt l (refStep s x) (refStep_lt s x).1 (refStep_lt s x).2

/-! ### The scalar loop agrees with the reference recurrence on reduced states -/

lemma scalarStep_eq_refStep (s : Nat × Nat) (x : Fin 256)
    (h1 : s.1 < ADLER32_PRIME) (h2 : s.2 < ADLER32_PRIME) :
    scalarStep s x = refStep s x := by
  have hp : ADLER32_PRIME = 65521 := rfl
  have hu : U32_MOD = 4294967296 := rfl
  have hx : x.val < 256 := x.isLt
  have ha : s.1 + x.val < U32_MOD := by omega
  have ha' : (s.1 + x.val) % ADLER32_PRIME < ADLER32_PRIME :=
    Nat.mod_lt _ ADLER32_PRIME_pos
  have hb : s.2 + (s.1 + x.val) % ADLER32_PRIME < U32_MOD := by omega
  simp only [scalarStep, refStep, Nat.mod_eq_of_lt ha, Nat.mod_eq_of_lt hb]

lemma scalarLoop_eq_refLoop : ∀ (l : List (Fin 256)) (s : Nat × Nat),
    s.1 < ADLER32_PRIME → s.2 < ADLER32_PRIME → scalarLoop s l = refLoop s l
  | [], _, _, _ => rfl
  | x :: l, s, h1, h2 => by
      have hstep := scalarStep_eq_refStep s x h1 h2
      show scalarLoop (scalarStep s x) l = refLoop (refStep s x) l
      rw [hstep]
      exact scalarLoop_eq_refLoop l (refStep s x) (refStep_lt s x).1 (refStep_lt s x).2

/-! ### The exact accumulation: monotonicity and growth bounds -/

lemma idealLoop_mono : ∀ (l : List (Fin 256)) (s : Nat × Nat),
    s.1 ≤ (idealLoop s l).1 ∧ s.2 ≤ (idealLoop s l).2
  | [], _ => ⟨le_refl _, le_refl _⟩
  | x :: l, s => by
      have h := idealLoop_mono l (idealStep s x)
      refine ⟨le_trans ?_ h.1, le_trans ?_ h.2⟩
      · exact Nat.le_add_right s.1 x.val
      · exact Nat.le_add_right s.2 (s.1 + x.val)

lemma idealLoop_le : ∀ (l : List (Fin 256)) (a b : Nat),
    (idealLoop (a, b) l).1 ≤ a + 255 * l.length ∧
    2 * (idealLoop (a, b) l).2 ≤
      2 * b + 2 * l.length * a + 255 * (l.length * (l.length + 1))
  | [], a, b => by simp [idealLoop]
  | x :: l, a, b => by
      have hx : x.val ≤ 255 := Nat.le_of_lt_succ x.isLt
      have ih := idealLoop_le l (a + x.val) (b + (a + x.val))
      have hstep : idealLoop (a, b) (x :: l) = idealLoop (a + x.val, b + (a + x.val)) l := by
        simp [idealLoop, idealStep]
      rw [hstep, List.length_cons]
      constructor
      · have h1 := ih.1
        omega
      · have h2 := ih.2
        have hkey : 2 * x.val * (l.length + 1) ≤ 510 * (l.length + 1) :=
          Nat.mul_le_mul_right _ (by omega)
        nlinarith [h2, hkey]

lemma idealLoop_lt_u32 (l : List (Fin 256)) (a b : Nat)
    (ha : a ≤ 65520) (hb : b ≤ 65520) (hl : l.length ≤ 5552) :
    (idealLoop (a, b) l).1 < U32_MOD ∧ (idealLoop (a, b) l).2 < U32_MOD := by
  have h := idealLoop_le l a b
  constructor
  · have h1 := h.1
    have : 255 * l.length ≤ 255 * 5552 := Nat.mul_le_mul_left _ hl
    unfold U32_MOD; omega
  · have h2 := h.2
    have hLa : 2 * l.length * a ≤ 2 * 5552 * 65520 :=
      Nat.mul_le_mul (Nat.mul_le_mul_left 2 hl) ha
    have hLL : 255 * (l.length * (l.length + 1)) ≤ 255 * (5552 * 5553) :=
      Nat.mul_le_mul_left _ (Nat.mul_le_mul hl (by omega))
    unfold U32_MOD; omega

/-! ### Within one block, no 32-bit wraparound occurs -/

lemma rawLoop_eq_idealLoop : ∀ (l : List (Fin 256)) (a b : Nat),
    (idealLoop (a, b) l).1 < U32_MOD → (idealLoop (a, b) l).2 < U32_MOD →
    rawLoop (a, b) l = idealLoop (a, b) l
  | [], _, _, _, _ => rfl
  | x :: l, a, b, h1, h2 => by
      have hstep : idealLoop (a, b) (x :: l) = idealLoop (a + x.val, b + (a + x.val)) l := by
        simp [idealLoop, idealStep]
      rw [hstep] at h1 h2
      have hmono := idealLoop_mono l (a + x.val, b + (a + x.val))
      have hA : a + x.val < U32_MOD := lt_of_le_of_lt hmono.1 h1
      have hB : b + (a + x.val) < U32_MOD := lt_of_le_of_lt hmono.2 h2
      have hraw : rawStep (a, b) x = (a + x.val, b + (a + x.val)) := by
        simp only [rawStep, Nat.mod_eq_of_lt hA, Nat.mod_eq_of_lt hB]
      show rawLoop (rawStep (a, b) x) l = idealLoop (a + x.val, b + (a + x.val)) l
      rw [hraw]
      exact rawLoop_eq_idealLoop l (a + x.val) (b + (a + x.val)) h1 h2

/-! ### Reducing the exact accumulation recovers the reference recurrence -/

lemma refLoop_mod : ∀ (l : List (Fin 256)) (a b : Nat),
    refLoop (a % ADLER32_PRIME, b % ADLER32_PRIME) l =
      ((idealLoop (a, b) l).1 % ADLER32_PRIME, (idealLoop (a, b) l).2 % ADLER32_PRIME)
  | [], a, b => rfl
  | x :: l, a, b => by
      have hstep : refStep (a % ADLER32_PRIME, b % ADLER32_PRIME) x =
          ((a + x.val) % ADLER32_PRIME, (b + (a + x.val)) % ADLER32_PRIME) := by
        simp [refStep, Nat.mod_add_mod, Nat.add_mod_mod]
      have hideal : idealLoop (a, b) (x :: l) = idealLoop (a + x.val, b + (a + x.val)) l := by
        simp [idealLoop, idealStep]
      rw [hideal]
      show refLoop (refStep (a % ADLER32_PRIME, b % ADLER32_PRIME) x) l = _
      rw [hstep]
      exact refLoop_mod l (a + x.val) (b + (a + x.val))

/-- Reducing the result of one unreduced span (of at most `BLOCK_SIZE`
bytes, entered with a reduced state) agrees with the reference
recurrence: the 32-bit wraparound inside the span is vacuous and the
single final reduction commutes with the per-byte reductions. -/
lemma rawLoop_mod_eq_refLoop (l : List (Fin 256)) (a b : Nat)
    (ha : a < ADLER32_PRIME) (hb : b < ADLER32_PRIME) (hl : l.length ≤ BLOCK_SIZE) :
    ((rawLoop (a, b) l).1 % ADLER32_PRIME, (rawLoop (a, b) l).2 % ADLER32_PRIME) =
      refLoop (a, b) l := by
  have hp : ADLER32_PRIME = 65521 := rfl
  have hbs : BLOCK_SIZE = 5552 := rfl
  have hu := idealLoop_lt_u32 l a b (by omega) (by omega) (by omega)
  rw [rawLoop_eq_idealLoop l a b hu.1 hu.2]
  have h := refLoop_mod l a b
  rw [Nat.mod_eq_of_lt ha, Nat.mod_eq_of_lt hb] at h
  exact h.symm

/-! ### The block path computes the reference recurrence -/

lemma processBlocks_zero (s : Nat × Nat) (buf : List (Fin 256)) :
    processBlocks s buf 0 = s := rfl

lemma processBlocks_succ (s : Nat × Nat) (buf : List (Fin 256)) (n : Nat) :
    processBlocks s buf (n + 1) =
      processBlocks
        ((rawLoop s (buf.take BLOCK_SIZE)).1 % ADLER32_PRIME,
         (rawLoop s (buf.take BLOCK_SIZE)).2 % ADLER32_PRIME)
        (buf.drop BLOCK_SIZE) n := rfl

lemma longPath_eq_refLoop : ∀ (n : Nat) (buf : List (Fin 256)) (a b : Nat),
    a < ADLER32_PRIME → b < ADLER32_PRIME →
    n * BLOCK_SIZE ≤ buf.length → buf.length < (n + 1) * BLOCK_SIZE →
    ((rawLoop (processBlocks (a, b) buf n) (buf.drop (n * BLOCK_SIZE))).1 % ADLER32_PRIME,
     (rawLoop (processBlocks (a, b) buf n) (buf.drop (n * BLOCK_SIZE))).2 % ADLER32_PRIME) =
      refLoop (a, b) buf
  | 0, buf, a, b, ha, hb, _, hlt => by
      rw [processBlocks_zero, Nat.zero_mul, List.drop_zero]
      exact rawLoop_mod_eq_refLoop buf a b ha hb (by omega)
  | n + 1, buf, a, b, ha, hb, hge, hlt => by
      have htake : (buf.take BLOCK_SIZE).length ≤ BLOCK_SIZE := by
        rw [List.length_take]; omega
      have hblock := rawLoop_mod_eq_refLoop (buf.take BLOCK_SIZE) a b ha hb htake
      have hvalid := refLoop_lt (buf.take BLOCK_SIZE) (a, b) ha hb
      rw [processBlocks_succ, hblock]
      have hdroplen : (buf.drop BLOCK_SIZE).length = buf.length - BLOCK_SIZE :=
        List.length_drop BLOCK_SIZE buf
      have hge' : n * BLOCK_SIZE ≤ (buf.drop BLOCK_SIZE).length := by
        rw [hdroplen]
        have : (n + 1) * BLOCK_SIZE = n * BLOCK_SIZE + BLOCK_SIZE := by ring
        omega
      have hlt' : (buf.drop BLOCK_SIZE).length < (n + 1) * BLOCK_SIZE := by
        rw [hdroplen]
        simp only [BLOCK_SIZE] at hlt ⊢
        omega
      have ih := longPath_eq_refLoop n (buf.drop BLOCK_SIZE)
        (refLoop (a, b) (buf.take BLOCK_SIZE)).1
        (refLoop (a, b) (buf.take BLOCK_SIZE)).2
        hvalid.1 hvalid.2 hge' hlt'
      have hdrop : (buf.drop BLOCK_SIZE).drop (n * BLOCK_SIZE) =
          buf.drop ((n + 1) * BLOCK_SIZE) := by
        rw [List.drop_drop]
        congr 1
        ring
      rw [hdrop] at ih
      rw [ih]
      have hsplit : refLoop (refLoop (a, b) (buf.take BLOCK_SIZE)) (buf.drop BLOCK_SIZE) =
          refLoop (a, b) (buf.take BLOCK_SIZE ++ buf.drop BLOCK_SIZE) := by
        unfold refLoop
        rw [List.foldl_append]
      rw [hsplit, List.take_append_drop]

/-- Central refinement: on states satisfying the documented precondition,
the dispatching update routine computes exactly the reference behaviour
(identity on the empty buffer, the byte-by-byte recurrence otherwise). -/
lemma adler32_update_eq_adlerRef (s1 s2 : Nat)
    (h1 : s1 < ADLER32_PRIME) (h2 : s2 < ADLER32_PRIME) (buf : List (Fin 256)) :
    adler32_update s1 s2 buf = adlerRef s1 s2 buf := by
  by_cases h0 : buf.length = 0
  · have hnil : buf = [] := List.length_eq_zero.mp h0
    subst hnil
    rfl
  · have hnil : ¬ buf = [] := fun h => h0 (by simp [h])
    by_cases h16 : buf.length < 16
    · unfold adler32_update adlerRef
      simp only [h0, h16, hnil, if_false, if_true]
      exact scalarLoop_eq_refLoop buf (s1, s2) h1 h2
    · have hge : (buf.length / BLOCK_SIZE) * BLOCK_SIZE ≤ buf.length := by
        simp only [BLOCK_SIZE]; omega
      have hlt : buf.length < (buf.length / BLOCK_SIZE + 1) * BLOCK_SIZE := by
        simp only [BLOCK_SIZE]; omega
      have hmain := longPath_eq_refLoop (buf.length / BLOCK_SIZE) buf s1 s2 h1 h2 hge hlt
      unfold adler32_update adlerRef
      simp only [h0, h16, hnil, if_false]
      exact hmain

/-! ### Chained calls -/

lemma adler32_update_nil (a b : Nat) : adler32_update a b [] = (1, 0) := rfl

lemma chainUpdate_cons (s : Nat × Nat) (c : List (Fin 256))
    (parts : List (List (Fin 256))) :
    chainUpdate s (c :: parts) = chainUpdate (adler32_update s.1 s.2 c) parts := rfl

lemma chainUpdate_append (s : Nat × Nat) (l1 l2 : List (List (Fin 256))) :
    chainUpdate s (l1 ++ l2) = chainUpdate (chainUpdate s l1) l2 := by
  unfold chainUpdate
  rw [List.foldl_append]

lemma adler32_update_ne_nil (a b : Nat)
    (ha : a < ADLER32_PRIME) (hb : b < ADLER32_PRIME)
    (c : List (Fin 256)) (hc : c ≠ []) :
    adler32_update a b c = refLoop (a, b) c := by
  rw [adler32_update_eq_adlerRef a b ha hb c]
  unfold adlerRef
  rw [if_neg hc]

lemma chainUpdate_eq_refLoop : ∀ (parts : List (List (Fin 256))) (a b : Nat),
    a < ADLER32_PRIME → b < ADLER32_PRIME → (∀ c ∈ parts, c ≠ []) →
    chainUpdate (a, b) parts = refLoop (a, b) parts.flatten
  | [], _, _, _, _, _ => rfl
  | c :: parts, a, b, ha, hb, h => by
      have hc : c ≠ [] := h c (List.mem_cons_self c parts)
      have hrest : ∀ d ∈ parts, d ≠ [] := fun d hd => h d (List.mem_cons_of_mem c hd)
      have hval := refLoop_lt c (a, b) ha hb
      rw [chainUpdate_cons]
      show chainUpdate (adler32_update a b c) parts = _
      rw [adler32_update_ne_nil a b ha hb c hc]
      have ih := chainUpdate_eq_refLoop parts (refLoop (a, b) c).1 (refLoop (a, b) c).2
        hval.1 hval.2 hrest
      rw [Prod.mk.eta] at ih
      rw [ih, List.flatten_cons]
      unfold refLoop
      rw [List.foldl_append]

lemma adlerRef_one_zero (l : List (Fin 256)) : adlerRef 1 0 l = refLoop (1, 0) l := by
  cases l with
  | nil => rfl
  | cons x t =>
      unfold adlerRef
      rw [if_neg (by simp)]

lemma chainUpdate_flatten (parts : List (List (Fin 256))) (h : ∀ c ∈ parts, c ≠ []) :
    chainUpdate (1, 0) parts = adler32_update 1 0 parts.flatten := by
  rw [chainUpdate_eq_refLoop parts 1 0 (by decide) (by decide) h,
    adler32_update_eq_adlerRef 1 0 (by decide) (by decide), adlerRef_one_zero]

/-! ### The claims -/

/-- Claim C1: for every buffer length (including 0), every byte content,
and every starting state with both components in [0, 65521), the result of
the dispatching update routine (empty-buffer, scalar short-buffer, or
block-wise deferred-reduction regime) is bit-identical to the scalar
byte-by-byte recurrence applied to the entire buffer, with the
empty-buffer case returning (1, 0). -/
theorem adler32_update_refines_scalar (s1 s2 : Nat)
    (h1 : s1 < ADLER32_PRIME) (h2 : s2 < ADLER32_PRIME) (buf : List (Fin 256)) :
    adler32_update s1 s2 buf = adlerRef s1 s2 buf :=
  adler32_update_eq_adlerRef s1 s2 h1 h2 buf

theorem adler32_update_refines_scalar_witness :
    100 < ADLER32_PRIME ∧ 200 < ADLER32_PRIME ∧
    adler32_update 100 200
      [1, 2, 3, 4, 5, 6, 7, 8, 9, 10, 11, 12, 13, 14, 15, 16, 17, 18, 19, 20] =
    adlerRef 100 200
      [1, 2, 3, 4, 5, 6, 7, 8, 9, 10, 11, 12, 13, 14, 15, 16, 17, 18, 19, 20] :=
  ⟨by decide, by decide,
    adler32_update_refines_scalar 100 200 (by decide) (by decide) _⟩

/-- Claim C2: for every call whose starting state has both components in
[0, 65521) and any buffer of any length and content, the returned state
has both components in [0, 65521). -/
theorem adler32_update_range_invariant (s1 s2 : Nat)
    (h1 : s1 < ADLER32_PRIME) (h2 : s2 < ADLER32_PRIME) (buf : List (Fin 256)) :
    (adler32_update s1 s2 buf).1 < ADLER32_PRIME ∧
    (adler32_update s1 s2 buf).2 < ADLER32_PRIME :=
  adler32_update_lt s1 s2 buf

theorem adler32_update_range_invariant_witness :
    7 < ADLER32_PRIME ∧ 9 < ADLER32_PRIME ∧
    ((adler32_update 7 9 [10, 20]).1 < ADLER32_PRIME ∧
     (adler32_update 7 9 [10, 20]).2 < ADLER32_PRIME) :=
  ⟨by decide, by decide,
    adler32_update_range_invariant 7 9 (by decide) (by decide) [10, 20]⟩

/-- Claim C3: calling the update routine with an empty buffer returns
exactly (1, 0) for every starting state, including non-identity states:
the incoming state is ignored, not passed through. -/
theorem adler32_update_empty_resets (s1 s2 : Nat) :
    adler32_update s1 s2 [] = (1, 0) := rfl

/-- Claim C4: for every buffer and every way of splitting it into
consecutive non-empty sub-buffers, threading the state through sequential
calls starting from (1, 0) yields the same final state as the single call
on the whole buffer. -/
theorem adler32_chunking_invariance (parts : List (List (Fin 256)))
    (h : ∀ c ∈ parts, c ≠ []) :
    chainUpdate (1, 0) parts = adler32_update 1 0 parts.flatten :=
  chainUpdate_flatten parts h

theorem adler32_chunking_invariance_witness :
    chainUpdate (1, 0) [[1, 2], [3]] =
      adler32_update 1 0 (List.flatten [[1, 2], [3]]) :=
  adler32_chunking_invariance [[1, 2], [3]] (by decide)

/-- Claim C5: an empty chunk in a split resets the running state to
(1, 0), so the chained result equals the single-call checksum of the
concatenation of only the chunks after the last empty chunk; and there
exists a split with an empty mid-stream chunk whose chained result
differs from the single-call result on the whole buffer. -/
theorem adler32_empty_chunk_resets :
    (∀ (pre post : List (List (Fin 256))), (∀ c ∈ post, c ≠ []) →
        chainUpdate (1, 0) (pre ++ [] :: post) = adler32_update 1 0 post.flatten) ∧
    ∃ parts : List (List (Fin 256)), [] ∈ parts ∧
        chainUpdate (1, 0) parts ≠ adler32_update 1 0 parts.flatten := by
  constructor
  · intro pre post hpost
    rw [chainUpdate_append, chainUpdate_cons, adler32_update_nil]
    exact chainUpdate_flatten post hpost
  · exact ⟨[[1], [], [2]], by decide, by decide⟩

theorem adler32_empty_chunk_resets_witness :
    chainUpdate (1, 0) ([[3]] ++ [] :: [[4], [5]]) =
      adler32_update 1 0 (List.flatten [[4], [5]]) :=
  adler32_empty_chunk_resets.1 [[3]] [[4], [5]] (by decide)

/-- Claim C6: entering a deferred-reduction span with a reduced state (as
the block path always does: each full block of BLOCK_SIZE bytes starts
from a state just reduced mod 65521, and the remainder of fewer than
BLOCK_SIZE bytes starts from the last reduction), the unreduced 32-bit
accumulation over at most BLOCK_SIZE = 5552 bytes coincides with the
exact accumulation over unbounded naturals, whose running values stay
below 2 ^ 32: no intermediate value ever wraps before the next (or final)
reduction. -/
theorem adler32_block_accumulation_no_overflow (a b : Nat) (l : List (Fin 256))
    (ha : a < ADLER32_PRIME) (hb : b < ADLER32_PRIME) (hl : l.length ≤ BLOCK_SIZE) :
    rawLoop (a, b) l = idealLoop (a, b) l ∧
    (idealLoop (a, b) l).1 < U32_MOD ∧ (idealLoop (a, b) l).2 < U32_MOD := by
  have hp : ADLER32_PRIME = 65521 := rfl
  have hbs : BLOCK_SIZE = 5552 := rfl
  have hu := idealLoop_lt_u32 l a b (by omega) (by omega) (by omega)
  exact ⟨rawLoop_eq_idealLoop l a b hu.1 hu.2, hu⟩

theorem adler32_block_accumulation_no_overflow_witness :
    65520 < ADLER32_PRIME ∧ ([(255 : Fin 256), 255, 255].length ≤ BLOCK_SIZE) ∧
    (rawLoop (65520, 65520) [255, 255, 255] = idealLoop (65520, 65520) [255, 255, 255] ∧
     (idealLoop (65520, 65520) [255, 255, 255]).1 < U32_MOD ∧
     (idealLoop (65520, 65520) [255, 255, 255]).2 < U32_MOD) :=
  ⟨by decide, by decide,
    adler32_block_accumulation_no_overflow 65520 65520 [255, 255, 255]
      (by decide) (by decide) (by decide)⟩

/-- Claim C7: from the initial state (1, 0) the routine produces the
standard published Adler-32 values: the empty string gives (1, 0) with
packed value 1; the ASCII bytes of the string abc give packed value
0x024d0127; the ASCII bytes of the string Wikipedia give packed value
0x11E60398. -/
theorem adler32_known_vectors :
    adler32_update 1 0 [] = (1, 0) ∧
    packedChecksum (adler32_update 1 0 []) = 0x00000001 ∧
    packedChecksum (adler32_update 1 0 [97, 98, 99]) = 0x024d0127 ∧
    packedChecksum
      (adler32_update 1 0 [87, 105, 107, 105, 112, 101, 100, 105, 97]) = 0x11E60398 := by
  refine ⟨rfl, rfl, by decide, by decide⟩

/-- Claim C8, counterexample: the claim quantifies over every starting
state, but on a state outside the documented precondition the scalar
regime additions wrap modulo 2 ^ 32 before the prime reduction, so the
result differs from the recurrence written with mod 65521 alone: with
starting state (4294967295, 0) and the one-byte buffer 255 the code
returns (254, 254) while the claimed recurrence gives (479, 479). -/
theorem adler32_short_regime_counterexample :
    adler32_update 4294967295 0 [(255 : Fin 256)] ≠
      refLoop (4294967295, 0) [(255 : Fin 256)] := by decide

/-- Claim C8, amended: for every buffer with length in [1, 16) and every
starting state satisfying the documented precondition (both components
in [0, 65521)), the routine takes the scalar regime, processing the bytes
in buffer order and reducing both sums mod 65521 after every byte, i.e.
it computes exactly the byte-by-byte recurrence. -/
theorem adler32_short_regime_scalar (s1 s2 : Nat)
    (h1 : s1 < ADLER32_PRIME) (h2 : s2 < ADLER32_PRIME) (buf : List (Fin 256))
    (hlen1 : 1 ≤ buf.length) (hlen : buf.length < 16) :
    adler32_update s1 s2 buf = refLoop (s1, s2) buf := by
  have h0 : ¬ buf.length = 0 := by omega
  unfold adler32_update
  simp only [h0, hlen, if_false, if_true]
  exact scalarLoop_eq_refLoop buf (s1, s2) h1 h2

theorem adler32_short_regime_scalar_witness :
    3 < ADLER32_PRIME ∧ 4 < ADLER32_PRIME ∧
    1 ≤ ([(9 : Fin 256)] : List (Fin 256)).length ∧
    adler32_update 3 4 [9] = refLoop (3, 4) [9] :=
  ⟨by decide, by decide, by decide,
    adler32_short_regime_scalar 3 4 (by decide) (by decide) [9] (by decide) (by decide)⟩

/-- Claim C9: the routine is deterministic in its explicit inputs; two
calls with equal starting states and equal buffers return equal results.
In this embedding the routine is a pure function of exactly the state
pair and the buffer, which is the formal counterpart of reading only its
inputs and touching nothing else. -/
theorem adler32_update_deterministic (s1 s2 t1 t2 : Nat)
    (buf buf' : List (Fin 256))
    (h1 : s1 = t1) (h2 : s2 = t2) (hb : buf = buf') :
    adler32_update s1 s2 buf = adler32_update t1 t2 buf' := by
  subst h1
  subst h2
  subst hb
  rfl

theorem adler32_update_deterministic_witness :
    adler32_update 1 2 [5] = adler32_update 1 2 [5] :=
  adler32_update_deterministic 1 2 1 2 [5] [5] rfl rfl rfl

/-- Claim C10: even when the documented precondition is violated and the
starting state ranges over all pairs of 32-bit unsigned integers, the
routine (whose arithmetic is modelled with explicit wraparound modulo
2 ^ 32 throughout) is total and the returned state always has both
components in [0, 65521). -/
theorem adler32_update_total_reduced (s1 s2 : Nat)
    (h1 : s1 < U32_MOD) (h2 : s2 < U32_MOD) (buf : List (Fin 256)) :
    (adler32_update s1 s2 buf).1 < ADLER32_PRIME ∧
    (adler32_update s1 s2 buf).2 < ADLER32_PRIME :=
  adler32_update_lt s1 s2 buf

theorem adler32_update_total_reduced_witness :
    4294967295 < U32_MOD ∧
    ((adler32_update 4294967295 4294967295 [7, 8]).1 < ADLER32_PRIME ∧
     (adler32_update 4294967295 4294967295 [7, 8]).2 < ADLER32_PRIME) :=
  ⟨by decide,
    adler32_update_total_reduced 4294967295 4294967295 (by decide) (by decide) [7, 8]⟩
